import Mathlib

/-!
Shallow embedding of the chat backend's conversation/message consistency model.

Documents are embedded as Lean structures mirroring the mongoose schemas
(src/src/schema/conversation.model.ts, the message schema, the user schema),
and every handler that the claims refer to (chat controller and socket
handlers) is embedded as a pure function from an explicit database state to
a response paired with the next database state.  ObjectIds and Dates are
modelled as natural numbers; a null-able field is an Option.
-/

/-- ObjectId, modelled as a natural number. -/
abbrev ObjectId := Nat

/-- A Date (milliseconds since epoch), modelled as a natural number. -/
abbrev Timestamp := Nat

/-- Participant subdocument of a conversation (participantSchema in
conversation.model.ts); defaults mirror the schema defaults. -/
structure Participant where
  userId : ObjectId
  deletedAt : Option Timestamp := none
  hideMessagesBefore : Option Timestamp := none
  archivedAt : Option Timestamp := none
  mutedUntil : Option Timestamp := none
  blocked : Bool := false
deriving DecidableEq, Repr

/-- The conversation type enum: the string enum with values
private and group in conversationSchema. -/
inductive ConvType where
  | Private
  | group
deriving DecidableEq, Repr

/-- The denormalized lastMessage projection stored on a conversation. -/
structure LastMessage where
  messageId : ObjectId
  text : String
  sentAt : Timestamp
deriving DecidableEq, Repr

/-- Conversation document (conversationSchema); timestamps are managed by
the store, field defaults mirror the schema defaults. -/
structure Conversation where
  id : ObjectId
  type : ConvType := ConvType.Private
  participants : List Participant
  groupName : Option String := none
  groupPhoto : Option String := none
  lastMessage : Option LastMessage := none
  createdAt : Timestamp
  updatedAt : Timestamp
deriving DecidableEq, Repr

/-- Attachment subdocument of a message (attachmentSchema). -/
inductive AttachmentKind where
  | image
  | video
  | file
deriving DecidableEq, Repr

structure Attachment where
  kind : AttachmentKind
  url : String
deriving DecidableEq, Repr

/-- Message document (messageSchema); defaults mirror the schema defaults.
Note the schema has fields deletedFor, seenBy, deliveredTo but no field
named readBy. -/
structure Message where
  id : ObjectId
  conversationId : ObjectId
  senderId : ObjectId
  text : Option String := none
  attachments : List Attachment := []
  isDeletedForEveryone : Bool := false
  deletedFor : List ObjectId := []
  seenBy : List ObjectId := []
  deliveredTo : List ObjectId := []
  createdAt : Timestamp
  updatedAt : Timestamp
deriving DecidableEq, Repr

/-- The persistent store: users (only their ids matter to the handlers
modelled here), conversations and messages, plus fresh-id counters for
document creation. -/
structure DB where
  users : List ObjectId := []
  convs : List Conversation := []
  messages : List Message := []
  nextConvId : Nat := 0
  nextMsgId : Nat := 0
deriving DecidableEq, Repr

/-- Updates the first participant whose userId matches, leaving every other
entry untouched; this is how a mongoose positional update or a mutation of
the subdocument returned by participants.find acts on the embedded array. -/
def updateFirstMatching (meId : ObjectId) (f : Participant → Participant) :
    List Participant → List Participant
  | [] => []
  | p :: ps =>
    if p.userId == meId then f p :: ps
    else p :: updateFirstMatching meId f ps

/-- Insertion step of the descending-by-createdAt sort used to model a
store query sorted by createdAt descending. -/
def insertDesc (m : Message) : List Message → List Message
  | [] => [m]
  | x :: xs => if x.createdAt < m.createdAt then m :: x :: xs else x :: insertDesc m xs

/-- Sort a list of messages by createdAt, newest first (models a query with
sort createdAt -1; ties keep store order, which the store leaves
unspecified). -/
def sortDesc : List Message → List Message
  | [] => []
  | x :: xs => insertDesc x (sortDesc xs)

theorem mem_insertDesc {a : Message} {m : Message} {l : List Message} :
    a ∈ insertDesc m l ↔ a = m ∨ a ∈ l := by
  induction l with
  | nil => simp [insertDesc]
  | cons x xs ih =>
    by_cases h : x.createdAt < m.createdAt
    · simp [insertDesc, h, ih]
    · simp only [insertDesc, if_neg h, List.mem_cons, ih]
      tauto

theorem mem_sortDesc {a : Message} {l : List Message} :
    a ∈ sortDesc l ↔ a ∈ l := by
  induction l with
  | nil => simp [sortDesc]
  | cons x xs ih => simp [sortDesc, mem_insertDesc, ih]

/-- The descending-sortedness invariant delivered by sortDesc. -/
def DescSorted (l : List Message) : Prop :=
  l.Pairwise (fun a b => b.createdAt ≤ a.createdAt)

theorem descSorted_insertDesc {m : Message} {l : List Message}
    (h : DescSorted l) : DescSorted (insertDesc m l) := by
  induction l with
  | nil => simp [DescSorted, insertDesc]
  | cons x xs ih =>
    rcases h with _ | ⟨hx, hxs⟩
    by_cases hlt : x.createdAt < m.createdAt
    · simp only [insertDesc, if_pos hlt]
      constructor
      · intro b hb
        rcases List.mem_cons.1 hb with rfl | hb
        · exact Nat.le_of_lt hlt
        · exact Nat.le_trans (hx b hb) (Nat.le_of_lt hlt)
      · exact List.Pairwise.cons hx hxs
    · simp only [insertDesc, if_neg hlt]
      constructor
      · intro b hb
        rcases mem_insertDesc.1 hb with rfl | hb
        · exact Nat.le_of_not_lt hlt
        · exact hx b hb
      · exact ih hxs

theorem descSorted_sortDesc (l : List Message) : DescSorted (sortDesc l) := by
  induction l with
  | nil => simp [DescSorted, sortDesc]
  | cons x xs ih => exact descSorted_insertDesc ih

theorem insertDesc_ne_nil (m : Message) (l : List Message) :
    insertDesc m l ≠ [] := by
  cases l with
  | nil => simp [insertDesc]
  | cons x xs =>
    by_cases h : x.createdAt < m.createdAt <;> simp [insertDesc, h]

theorem sortDesc_eq_nil_iff {l : List Message} : sortDesc l = [] ↔ l = [] := by
  cases l with
  | nil => simp [sortDesc]
  | cons x xs =>
    simp only [sortDesc]
    constructor
    · intro h; exact absurd h (insertDesc_ne_nil x (sortDesc xs))
    · intro h; exact absurd h (by simp)

theorem sortDesc_head_max {l : List Message} {m : Message} {t : List Message}
    (h : sortDesc l = m :: t) :
    m ∈ l ∧ ∀ x ∈ l, x.createdAt ≤ m.createdAt := by
  have hmem : m ∈ l := mem_sortDesc.1 (h ▸ List.mem_cons_self m t)
  refine ⟨hmem, fun x hx => ?_⟩
  have hx' : x ∈ sortDesc l := mem_sortDesc.2 hx
  rw [h] at hx'
  rcases List.mem_cons.1 hx' with rfl | hx'
  · exact Nat.le_refl _
  · have hs := descSorted_sortDesc l
    rw [h] at hs
    rcases hs with _ | ⟨hhead, _⟩
    exact hhead x hx'

/-- A conversation of type private whose participants array contains both
users of the pair; this is the $all / $elemMatch pair lookup used by the
handlers. -/
def isPrivatePairConv (meId participantId : ObjectId) (c : Conversation) : Bool :=
  c.type == ConvType.Private
    && c.participants.any (fun p => p.userId == meId)
    && c.participants.any (fun p => p.userId == participantId)

/-- The block-guard query of getOrCreatePrivateConversation: an existing
private conversation of the pair where either side has blocked set. -/
def blockedPairConv (meId participantId : ObjectId) (c : Conversation) : Bool :=
  isPrivatePairConv meId participantId c
    && (c.participants.any (fun p => p.userId == meId && p.blocked)
        || c.participants.any (fun p => p.userId == participantId && p.blocked))

/-- The active-thread query of getOrCreatePrivateConversation: a private
conversation where both sides have deletedAt null. -/
def activePairConv (meId participantId : ObjectId) (c : Conversation) : Bool :=
  c.type == ConvType.Private
    && c.participants.any (fun p => p.userId == meId && p.deletedAt == none)
    && c.participants.any (fun p => p.userId == participantId && p.deletedAt == none)

/-- Outcome of getOrCreatePrivateConversation (POST /private). -/
inductive GetOrCreateResult where
  | forbidden (msg : String)
  | okExisting (c : Conversation)
  | created (c : Conversation)
deriving DecidableEq, Repr

/-- Embeds getOrCreatePrivateConversation from the chat controller: block
guard first, then return the conversation only if both sides are active;
otherwise create a fresh conversation (an existing deleted thread is
deliberately not restored). -/
def getOrCreatePrivateConversation (meId participantId : ObjectId)
    (now : Timestamp) (db : DB) : GetOrCreateResult × DB :=
  match db.convs.find? (blockedPairConv meId participantId) with
  | some _ => ((.forbidden ("Conversation not allowed")), db)
  | none =>
    match db.convs.find? (activePairConv meId participantId) with
    | some active => ((.okExisting active), db)
    | none =>
      let conv : Conversation :=
        { id := db.nextConvId
          participants := [{ userId := meId }, { userId := participantId }]
          createdAt := now
          updatedAt := now }
      ((.created conv),
       { db with convs := db.convs ++ [conv], nextConvId := db.nextConvId + 1 })

/-- Outcome of deleteConversationForUser (DELETE /conversation/:id). -/
inductive DeleteConvResult where
  | error (status : Nat) (msg : String)
  | ok (msg : String) (c : Conversation)
deriving DecidableEq, Repr

/-- The per-participant mutation of deleteConversationForUser: the handler
maps over all participants and, on the caller's record, sets deletedAt and
the hideMessagesBefore watermark to now. -/
def softDeleteParticipant (meId : ObjectId) (now : Timestamp) (p : Participant) :
    Participant :=
  if p.userId == meId then
    { p with deletedAt := some now, hideMessagesBefore := some now }
  else p

/-- Embeds deleteConversationForUser from the chat controller. -/
def deleteConversationForUser (meId convId : ObjectId) (now : Timestamp)
    (db : DB) : DeleteConvResult × DB :=
  match db.convs.find? (fun c => c.id == convId) with
  | none => ((.error 404 ("Conversation not found")), db)
  | some conv =>
    let conv2 :=
      { conv with participants := conv.participants.map (softDeleteParticipant meId now) }
    ((.ok ("Conversation deleted for you") conv2),
     { db with convs := db.convs.map (fun c => if c.id == convId then conv2 else c) })

/-- Outcome of softDeleteConversation (DELETE /softdelete). -/
inductive SoftDelResult where
  | error (status : Nat) (msg : String)
  | ok (msg : String)
deriving DecidableEq, Repr

/-- Embeds softDeleteConversation from the chat controller: participant and
block checks, an idempotence short-circuit when deletedAt and
hideMessagesBefore already carry the identical timestamp, then the mutation
of the caller's participant record (the first array entry matching the
caller, as mongoose mutates the subdocument returned by find). -/
def softDeleteConversation (meId convId : ObjectId) (now : Timestamp)
    (db : DB) : SoftDelResult × DB :=
  match db.convs.find? (fun c => c.id == convId) with
  | none => ((.error 404 ("Conversation not found.")), db)
  | some conversation =>
    match conversation.participants.find? (fun p => p.userId == meId) with
    | none => ((.error 403 ("You are not a participant in this conversation.")), db)
    | some participant =>
      if participant.blocked then
        ((.error 403 ("Conversation cannot be deleted while blocked.")), db)
      else if participant.deletedAt.isSome && participant.hideMessagesBefore.isSome
          && participant.deletedAt == participant.hideMessagesBefore then
        ((.ok ("Conversation already deleted for this user.")), db)
      else
        let conv2 :=
          { conversation with
              participants := updateFirstMatching meId
                (fun p => { p with deletedAt := some now, hideMessagesBefore := some now })
                conversation.participants }
        ((.ok ("Conversation hidden successfully for the current user.")),
         { db with convs := db.convs.map (fun c => if c.id == convId then conv2 else c) })

/-- The acknowledgement payload of a socket handler. -/
structure Ack where
  ok : Bool
deriving DecidableEq, Repr

/-- Embeds the chat:delete socket handler from setupSocket: a single
updateOne that matches the conversation by id and participant and sets only
the positional participant's deletedAt field (hideMessagesBefore is not part
of the update); the handler acknowledges ok whether or not a document
matched. -/
def chatDeleteSocket (meId convId : ObjectId) (now : Timestamp) (db : DB) :
    Ack × DB :=
  match db.convs.find? (fun c =>
      c.id == convId && c.participants.any (fun p => p.userId == meId)) with
  | none => (⟨true⟩, db)
  | some conv =>
    let conv2 :=
      { conv with
          participants := updateFirstMatching meId
            (fun p => { p with deletedAt := some now }) conv.participants }
    (⟨true⟩,
     { db with convs := db.convs.map (fun c => if c.id == conv.id then conv2 else c) })

/-- Outcome of markMessagesSeen and deleteMessageForEveryone. -/
inductive SimpleResult where
  | error (status : Nat) (msg : String)
  | ok (msg : String)
deriving DecidableEq, Repr

/-- Embeds markMessagesSeen from the chat controller: after the
non-empty-array guard it runs one updateMany over the message ids pushing
the caller onto seenBy of every matching message the caller is not already
in, and reports success unconditionally; no conversation-membership or
message-existence check is performed. -/
def markMessagesSeen (meId : ObjectId) (messageIds : List ObjectId) (db : DB) :
    SimpleResult × DB :=
  if messageIds.isEmpty then ((.error 400 ("messageIds required")), db)
  else
    ((.ok ("Marked seen")),
     { db with messages := db.messages.map (fun m =>
         if messageIds.contains m.id && !(m.seenBy.contains meId) then
           { m with seenBy := m.seenBy ++ [meId] }
         else m) })

/-- A mongoose $addToSet update addressed to a named path of a message
document.  The message schema declares the array paths deletedFor, seenBy
and deliveredTo; mongoose runs updates in strict mode, so an update
addressed to any path absent from the schema is stripped and the document
is left unchanged. -/
def addToSetPath (path : String) (uid : ObjectId) (m : Message) : Message :=
  match path with
  | "deletedFor" =>
    if m.deletedFor.contains uid then m else { m with deletedFor := m.deletedFor ++ [uid] }
  | "seenBy" =>
    if m.seenBy.contains uid then m else { m with seenBy := m.seenBy ++ [uid] }
  | "deliveredTo" =>
    if m.deliveredTo.contains uid then m else { m with deliveredTo := m.deliveredTo ++ [uid] }
  | _ => m

/-- The participant/visibility lookup of getMessagesByConversationId: the
query pairs the id condition with two independent top-level conditions on
the participants array (some participant has the caller's userId, and some
participant, not necessarily the same one, has deletedAt null). -/
def findVisibleConv (uid convId : ObjectId) (convs : List Conversation) :
    Option Conversation :=
  convs.find? (fun c => c.id == convId
    && c.participants.any (fun p => p.userId == uid)
    && c.participants.any (fun p => p.deletedAt == none))

/-- The caller's hideMessagesBefore watermark read from the conversation
(participant lookup followed by the or-null coalescing in the handler). -/
def viewerWatermark (uid : ObjectId) (c : Conversation) : Option Timestamp :=
  match c.participants.find? (fun p => p.userId == uid) with
  | some p => p.hideMessagesBefore
  | none => none

/-- The effective page size: Number(limit) or 30 when absent or zero (a
falsy query value falls back to the default), capped at 100. -/
def effectiveLimit (limitQ : Option Nat) : Nat :=
  min (match limitQ with
       | none => 30
       | some n => if n == 0 then 30 else n) 100

/-- The message filter of getMessagesByConversationId: same conversation,
not deleted for the viewer, strictly newer than the watermark when one is
set, and strictly older than the pagination cursor when one is given.  No
condition mentions isDeletedForEveryone. -/
def messageVisible (uid : ObjectId) (hideBefore : Option Timestamp)
    (beforeQ : Option Timestamp) (convId : ObjectId) (m : Message) : Bool :=
  m.conversationId == convId
    && !(m.deletedFor.contains uid)
    && (match hideBefore with
        | some hb => hb < m.createdAt
        | none => true)
    && (match beforeQ with
        | some b => m.createdAt < b
        | none => true)

/-- The page payload returned by getMessagesByConversationId. -/
structure MessagesPage where
  conversationId : ObjectId
  conversationType : ConvType
  messages : List Message
  nextCursor : Option Timestamp
  hasMore : Bool
deriving DecidableEq, Repr

/-- Outcome of getMessagesByConversationId (GET /:id/messages). -/
inductive MsgsResult where
  | error (status : Nat) (msg : String)
  | ok (page : MessagesPage)
deriving DecidableEq, Repr

/-- Embeds getMessagesByConversationId from the chat controller: access
check, watermark, fetch of limit+1 newest matching messages, pagination
cursor, the mark-as-read updateMany (addressed to the path readBy), and the
oldest-first response. -/
def getMessagesByConversationId (uid convId : ObjectId) (limitQ : Option Nat)
    (beforeQ : Option Timestamp) (db : DB) : MsgsResult × DB :=
  match findVisibleConv uid convId db.convs with
  | none => ((.error 404 ("Conversation not found or access denied.")), db)
  | some conversation =>
    let hideBefore := viewerWatermark uid conversation
    let limit := effectiveLimit limitQ
    let fetched :=
      (sortDesc (db.messages.filter
        (messageVisible uid hideBefore beforeQ conversation.id))).take (limit + 1)
    let hasMore := limit < fetched.length
    let items := if hasMore then fetched.take limit else fetched
    let nextCursor := if hasMore then fetched.getLast?.map (fun m => m.createdAt) else none
    let db2 :=
      { db with messages := db.messages.map (fun m =>
          if m.conversationId == conversation.id && !(m.senderId == uid) then
            addToSetPath ("readBy") uid m
          else m) }
    ((.ok { conversationId := conversation.id
            conversationType := conversation.type
            messages := items.reverse
            nextCursor := nextCursor
            hasMore := hasMore }),
     db2)

/-- Embeds deleteMessageForEveryone from the chat controller: sender-only
guard, the permanent isDeletedForEveryone flag, and — when the deleted
message was the conversation's lastMessage — the recomputation of
lastMessage from the newest remaining non-tombstoned message (run against
the already-updated message store) together with the updatedAt bump. -/
def deleteMessageForEveryone (meId messageId : ObjectId) (now : Timestamp)
    (db : DB) : SimpleResult × DB :=
  match db.messages.find? (fun m => m.id == messageId) with
  | none => ((.error 404 ("Message not found")), db)
  | some msg =>
    if !(msg.senderId == meId) then
      ((.error 403 ("Only sender can delete for everyone")), db)
    else
      let messages2 := db.messages.map (fun m =>
        if m.id == messageId then { m with isDeletedForEveryone := true } else m)
      match db.convs.find? (fun c => c.id == msg.conversationId) with
      | none => ((.ok ("Deleted for everyone")), { db with messages := messages2 })
      | some conv =>
        let isLast :=
          match conv.lastMessage with
          | some lm => lm.messageId == messageId
          | none => false
        if isLast then
          let latest :=
            (sortDesc (messages2.filter (fun m =>
              m.conversationId == msg.conversationId && !m.isDeletedForEveryone))).head?
          let conv2 :=
            { conv with
                lastMessage := latest.map (fun l =>
                  { messageId := l.id, text := l.text.getD "", sentAt := l.createdAt })
                updatedAt := now }
          ((.ok ("Deleted for everyone")),
           { db with messages := messages2,
                     convs := db.convs.map (fun c => if c.id == conv.id then conv2 else c) })
        else
          ((.ok ("Deleted for everyone")), { db with messages := messages2 })

/-- Computable model of the JavaScript string trim applied by the handlers:
drops whitespace characters from both ends. -/
def strTrim (s : String) : String :=
  String.mk (((s.data.dropWhile Char.isWhitespace).reverse.dropWhile
    Char.isWhitespace).reverse)

/-- Outcome of the private branch of createConversation (POST /create-con). -/
inductive PrivResult where
  | error (status : Nat) (msg : String)
  | restored (c : Conversation)
  | created (c : Conversation)
deriving DecidableEq, Repr

/-- Recognizer for the restored outcome. -/
def PrivResult.isRestored : PrivResult → Bool
  | .restored _ => true
  | _ => false

/-- The existing-conversation lookup of handlePrivateConversation: first
private conversation whose participants.userId array contains both users
(no condition on deletedAt). -/
def findPairConv (meId targetId : ObjectId) (convs : List Conversation) :
    Option Conversation :=
  convs.find? (isPrivatePairConv meId targetId)

/-- Embeds handlePrivateConversation from the chat controller (the private
branch of createConversation).  The two wall-clock-sensitive values are
passed explicitly: now is the Date captured by the handler at the start of
its transaction, dbNow is the timestamp the store assigns to the documents
it persists (mongoose timestamps at creation time); in the running system
the two are captured at different instants and need not coincide.  On a
fresh creation the conversation's lastMessage is set with sentAt := now,
while the persisted message carries createdAt := dbNow, exactly as in the
source. -/
def handlePrivateConversation (meId targetId : ObjectId)
    (initialMessage : String) (now dbNow : Timestamp) (db : DB) :
    PrivResult × DB :=
  if (strTrim initialMessage).length == 0 then
    ((.error 400 ("An initial message is required to start a private conversation.")), db)
  else if targetId == meId then
    ((.error 400 ("You cannot start a private chat with yourself.")), db)
  else if !(db.users.contains targetId) then
    ((.error 404 ("The target user was not found.")), db)
  else
    match findPairConv meId targetId db.convs with
    | some existingConversation =>
      if !(existingConversation.participants.length == 2) then
        ((.error 409 ("A conflicting private conversation exists with invalid participants.")), db)
      else
        match existingConversation.participants.find? (fun p => p.userId == meId),
              existingConversation.participants.find? (fun p => p.userId == targetId) with
        | some authParticipant, some targetParticipant =>
          if authParticipant.blocked || targetParticipant.blocked then
            ((.error 403 ("One of the participants has blocked this conversation.")), db)
          else if !(targetParticipant.deletedAt == none) then
            ((.error 403 ("The other participant has hidden this chat. They must restore it first.")), db)
          else
            let existing2 :=
              if !(authParticipant.deletedAt == none) then
                { existingConversation with
                    participants := updateFirstMatching meId
                      (fun p => { p with deletedAt := none, hideMessagesBefore := none })
                      existingConversation.participants }
              else existingConversation
            ((.restored existing2),
             { db with convs := db.convs.map (fun c =>
                 if c.id == existingConversation.id then existing2 else c) })
        | _, _ =>
          ((.error 409 ("Existing conversation is missing participants metadata.")), db)
    | none =>
      let conversation : Conversation :=
        { id := db.nextConvId
          participants := [{ userId := meId }, { userId := targetId }]
          lastMessage := none
          createdAt := dbNow
          updatedAt := dbNow }
      let message : Message :=
        { id := db.nextMsgId
          conversationId := conversation.id
          senderId := meId
          text := some (strTrim initialMessage)
          createdAt := dbNow
          updatedAt := dbNow }
      let conversation2 :=
        { conversation with
            lastMessage := some
              { messageId := message.id
                text := (message.text).getD ""
                sentAt := now } }
      ((.created conversation2),
       { db with
           convs := db.convs ++ [conversation2]
           messages := db.messages ++ [message]
           nextConvId := db.nextConvId + 1
           nextMsgId := db.nextMsgId + 1 })

/-- The (deletedAt, hideMessagesBefore) pair of one participant record of
one stored conversation; used to compare the end states left by the two
transports of the delete-conversation-for-me operation. -/
def participantState (db : DB) (convId uid : ObjectId) :
    Option (Option Timestamp × Option Timestamp) :=
  (db.convs.find? (fun c => c.id == convId)).bind (fun c =>
    (c.participants.find? (fun p => p.userId == uid)).map (fun p =>
      (p.deletedAt, p.hideMessagesBefore)))

theorem updateFirstMatching_find? {meId : ObjectId} (f : Participant → Participant)
    (hf : ∀ q, (f q).userId = q.userId) {l : List Participant} {p : Participant}
    (h : l.find? (fun q => q.userId == meId) = some p) :
    (updateFirstMatching meId f l).find? (fun q => q.userId == meId) = some (f p) := by
  induction l with
  | nil => simp [List.find?] at h
  | cons q qs ih =>
    by_cases hq : (q.userId == meId) = true
    · simp only [List.find?, hq] at h
      cases h
      have hfq : ((f p).userId == meId) = true := by rw [hf p]; exact hq
      simp only [updateFirstMatching, if_pos hq, List.find?, hfq]
    · have hq' : (q.userId == meId) = false := by simpa using hq
      simp only [List.find?, hq'] at h
      simp only [updateFirstMatching, hq', Bool.false_eq_true, if_false, List.find?]
      exact ih h

theorem updateFirstMatching_getElem_ne {meId : ObjectId} {f : Participant → Participant}
    {l : List Participant} {i : Nat} {p : Participant}
    (h : l[i]? = some p) (hne : p.userId ≠ meId) :
    (updateFirstMatching meId f l)[i]? = some p := by
  induction l generalizing i with
  | nil => simp at h
  | cons q qs ih =>
    cases i with
    | zero =>
      simp only [List.getElem?_cons_zero, Option.some.injEq] at h
      subst h
      have hq : (q.userId == meId) = false := beq_eq_false_iff_ne.2 hne
      simp [updateFirstMatching, hq]
    | succ j =>
      simp only [List.getElem?_cons_succ] at h
      by_cases hq : (q.userId == meId) = true
      · simp [updateFirstMatching, hq, h]
      · have hq' : (q.userId == meId) = false := by simpa using hq
        simp only [updateFirstMatching, hq', Bool.false_eq_true, if_false,
          List.getElem?_cons_succ]
        exact ih h

theorem find?_map_replace {convs : List Conversation} {convId : ObjectId}
    {conv : Conversation} (conv2 : Conversation)
    (h : convs.find? (fun c => c.id == convId) = some conv)
    (h2 : conv2.id = conv.id) :
    (convs.map (fun c => if c.id == convId then conv2 else c)).find?
      (fun c => c.id == convId) = some conv2 := by
  have hconvId : conv.id = convId := by
    have := List.find?_some h
    simpa using this
  induction convs with
  | nil => simp [List.find?] at h
  | cons c cs ih =>
    by_cases hc : (c.id == convId) = true
    · simp only [List.find?, hc] at h
      cases h
      have hc2 : (conv2.id == convId) = true := by simp [h2, hconvId]
      simp only [List.map_cons, if_pos hc, List.find?, hc2]
    · have hc' : (c.id == convId) = false := by simpa using hc
      simp only [List.find?, hc'] at h
      simp only [List.map_cons, hc', Bool.false_eq_true, if_false, List.find?]
      exact ih h

theorem find?_append_of_none {α : Type} {p : α → Bool} {l1 l2 : List α}
    (h : l1.find? p = none) : (l1 ++ l2).find? p = l2.find? p := by
  induction l1 with
  | nil => simp
  | cons a l ih =>
    by_cases ha : p a = true
    · simp only [List.find?, ha] at h
      cases h
    · have ha' : p a = false := by simpa using ha
      simp only [List.find?, ha'] at h
      simp only [List.cons_append, List.find?, ha']
      exact ih h

/-- Store for exercising the message-listing handler: one private
conversation between users 1 and 2, both active, holding a single message
from user 2 that has been deleted for everyone but still carries its
original text. -/
def c2db : DB :=
  { users := [1, 2]
    convs := [{ id := 0
                participants := [{ userId := 1 }, { userId := 2 }]
                createdAt := 0
                updatedAt := 5 }]
    messages := [{ id := 0
                   conversationId := 0
                   senderId := 2
                   text := some "secret"
                   isDeletedForEveryone := true
                   createdAt := 5
                   updatedAt := 5 }]
    nextConvId := 1
    nextMsgId := 1 }

/-- C2: the claim states that the message-listing operation suppresses the
content of a message with isDeletedForEveryone set, replacing text and
attachments with a tombstone while keeping the row.  The code keeps the row
but applies no suppression at all: listing the conversation returns the
tombstoned message with its original text served as active content, so the
claim fails on the code. -/
theorem getMessages_serves_deleted_for_everyone_content :
    (getMessagesByConversationId 1 0 none none c2db).1 =
      MsgsResult.ok
        { conversationId := 0
          conversationType := ConvType.Private
          messages := [{ id := 0
                         conversationId := 0
                         senderId := 2
                         text := some "secret"
                         isDeletedForEveryone := true
                         createdAt := 5
                         updatedAt := 5 }]
          nextCursor := none
          hasMore := false } := by
  decide

/-- Store for comparing the two transports of delete-conversation-for-me:
one private conversation between users 1 and 2 with pristine participant
records. -/
def c3db : DB :=
  { users := [1, 2]
    convs := [{ id := 0
                participants := [{ userId := 1 }, { userId := 2 }]
                createdAt := 0
                updatedAt := 0 }]
    nextConvId := 1 }

/-- C3: the claim states the chat:delete socket event performs the identical
mutation as the REST delete-conversation-for-me, setting hideMessagesBefore
in lockstep with deletedAt.  Evaluating both transports on the same store
shows the divergence: the socket handler leaves hideMessagesBefore null
while the REST handler sets it alongside deletedAt. -/
theorem chatDelete_socket_rest_divergence :
    participantState ((chatDeleteSocket 1 0 50 c3db).2) 0 1 = some (some 50, none) ∧
    participantState ((deleteConversationForUser 1 0 50 c3db).2) 0 1 =
      some (some 50, some 50) ∧
    (chatDeleteSocket 1 0 50 c3db).1.ok = true := by
  decide

/-- Store for exercising the fresh-creation branch of the private
conversation handler: two registered users and no conversations. -/
def c7db : DB := { users := [1, 2] }

/-- C7: the claim states every path that creates a message and updates the
lastMessage pointer sets lastMessage.sentAt to the persisted message's
createdAt, never a wall-clock timestamp captured at call time.  On the
private-conversation-creation path the handler captures now before creating
the message and stores lastMessage.sentAt := now, while the persisted
message carries the store-assigned createdAt: with now = 100 and a
store-assigned timestamp of 101 the pointer records 100, not 101. -/
theorem handlePrivate_lastMessage_uses_wall_clock :
    (handlePrivateConversation 1 2 ("hi") 100 101 c7db).1 =
      PrivResult.created
        { id := 0
          participants := [{ userId := 1 }, { userId := 2 }]
          lastMessage := some { messageId := 0, text := "hi", sentAt := 100 }
          createdAt := 101
          updatedAt := 101 } ∧
    (handlePrivateConversation 1 2 ("hi") 100 101 c7db).2.messages.map
      (fun m => m.createdAt) = [101] ∧
    (100 : Timestamp) ≠ 101 := by
  decide

/-- Starting store for the duplicate-private-conversation scenario. -/
def c1db : DB := { users := [1, 2] }

/-- First call: creates the private conversation between 1 and 2. -/
def c1Step1 : GetOrCreateResult × DB := getOrCreatePrivateConversation 1 2 10 c1db

/-- User 1 then soft-deletes that conversation over REST. -/
def c1Step2 : DeleteConvResult × DB := deleteConversationForUser 1 0 20 c1Step1.2

/-- Second create/get call for the same pair after the soft delete. -/
def c1Step3 : GetOrCreateResult × DB := getOrCreatePrivateConversation 1 2 30 c1Step2.2

/-- C1 counterexample: after user 1 soft-deletes the private conversation,
a second create/get call for the same unordered pair does not return the
first conversation: it creates a fresh one, leaving two persisted private
conversations between users 1 and 2, so the claim as stated is false. -/
theorem getOrCreate_duplicate_after_soft_delete :
    c1Step1.1 = GetOrCreateResult.created
      { id := 0
        participants := [{ userId := 1 }, { userId := 2 }]
        createdAt := 10
        updatedAt := 10 } ∧
    c1Step3.1 = GetOrCreateResult.created
      { id := 1
        participants := [{ userId := 1 }, { userId := 2 }]
        createdAt := 30
        updatedAt := 30 } ∧
    c1Step3.2.convs.countP (fun c => isPrivatePairConv 1 2 c) = 2 := by
  decide

/-- C9: fetching a conversation's messages leaves every message's seenBy
set unchanged: the mark-as-read updateMany inside the listing handler is
addressed to a path named readBy, which is not one of the message schema's
array paths, so the strict-mode update leaves each document untouched and
listing never marks a message as seen for the viewer. -/
theorem getMessages_leaves_seenBy_unchanged :
    (∀ (uid : ObjectId) (m : Message), addToSetPath ("readBy") uid m = m) ∧
    ∀ (uid convId : ObjectId) (limitQ : Option Nat) (beforeQ : Option Timestamp)
      (db : DB),
      ((getMessagesByConversationId uid convId limitQ beforeQ db).2).messages =
        db.messages := by
  constructor
  · intro uid m
    rfl
  · intro uid convId limitQ beforeQ db
    unfold getMessagesByConversationId
    cases h : findVisibleConv uid convId db.convs with
    | none => rfl
    | some conversation =>
      simp only
      have hid : ∀ m : Message,
          (if m.conversationId == conversation.id && !(m.senderId == uid) then
            addToSetPath ("readBy") uid m
          else m) = m := by
        intro m
        split
        · rfl
        · rfl
      rw [List.map_congr_left (fun m _ => hid m)]
      simp

/-- Store for the mark-seen claim: a private conversation between users 1
and 2 with one message; user 7 is registered but not a participant. -/
def c10db : DB :=
  { users := [1, 2, 7]
    convs := [{ id := 0
                participants := [{ userId := 1 }, { userId := 2 }]
                createdAt := 0
                updatedAt := 3 }]
    messages := [{ id := 0
                   conversationId := 0
                   senderId := 2
                   text := some "hey"
                   createdAt := 3
                   updatedAt := 3 }]
    nextConvId := 1
    nextMsgId := 1 }

/-- C10: markMessagesSeen performs no conversation-membership or
message-existence check: for any non-empty id array it reports success
regardless of the conversation store (the same outcome is produced with the
conversation collection emptied), it appends the caller to seenBy of every
matching message the caller is not in yet, and a store in which no message
matches still yields success rather than a not-found error. -/
theorem markMessagesSeen_no_membership_check (meId : ObjectId)
    (messageIds : List ObjectId) (db : DB) (hne : messageIds ≠ []) :
    (markMessagesSeen meId messageIds db).1 = SimpleResult.ok ("Marked seen") ∧
    (markMessagesSeen meId messageIds { db with convs := [] }).1 =
      SimpleResult.ok ("Marked seen") ∧
    ((markMessagesSeen meId messageIds db).2.messages.map (fun m => m.seenBy) =
      db.messages.map (fun m =>
        if messageIds.contains m.id && !(m.seenBy.contains meId) then
          m.seenBy ++ [meId]
        else m.seenBy)) ∧
    ((markMessagesSeen meId messageIds { db with convs := [] }).2.messages =
      (markMessagesSeen meId messageIds db).2.messages) := by
  have hempty : messageIds.isEmpty = false := by
    cases messageIds with
    | nil => exact absurd rfl hne
    | cons a l => rfl
  refine ⟨?_, ?_, ?_, ?_⟩
  · simp [markMessagesSeen, hempty]
  · simp [markMessagesSeen, hempty]
  · simp only [markMessagesSeen, hempty, Bool.false_eq_true, if_false]
    rw [List.map_map]
    apply List.map_congr_left
    intro m _
    simp only [Function.comp_apply]
    split
    · rfl
    · rfl
  · simp [markMessagesSeen, hempty]

/-- C10 witness: user 7, who is not a participant of conversation 0, marks
message 0 as seen; the operation succeeds and appends 7 to the message's
seenBy set. -/
theorem markMessagesSeen_no_membership_check_witness :
    (markMessagesSeen 7 [0] c10db).1 = SimpleResult.ok ("Marked seen") ∧
    (markMessagesSeen 7 [0] c10db).2.messages.map (fun m => m.seenBy) = [[7]] := by
  have h := markMessagesSeen_no_membership_check 7 [0] c10db (by decide)
  refine ⟨h.1, ?_⟩
  rw [h.2.2.1]
  decide

theorem messageVisible_true {uid : ObjectId} {hideBefore : Option Timestamp}
    {beforeQ : Option Timestamp} {convId : ObjectId} {m : Message}
    (h : messageVisible uid hideBefore beforeQ convId m = true) :
    uid ∉ m.deletedFor ∧ ∀ t, hideBefore = some t → t < m.createdAt := by
  unfold messageVisible at h
  simp only [Bool.and_eq_true] at h
  obtain ⟨⟨⟨hc, hd⟩, hh⟩, hb⟩ := h
  constructor
  · intro hmem
    rw [Bool.not_eq_true'] at hd
    simp only [List.contains_eq_any_beq, List.any_eq_false, beq_iff_eq] at hd
    exact hd uid hmem rfl
  · intro t ht
    rw [ht] at hh
    simpa using hh

/-- C5: for every viewer, conversation the access check admits, and page
request, the returned message list contains no message whose deletedFor set
contains the viewer, and, when the viewer's hideMessagesBefore watermark is
set, no message with createdAt at or below the watermark. -/
theorem getMessages_respects_deletedFor_and_watermark
    (uid convId : ObjectId) (limitQ : Option Nat) (beforeQ : Option Timestamp)
    (db : DB) (conversation : Conversation) (page : MessagesPage)
    (hconv : findVisibleConv uid convId db.convs = some conversation)
    (hrun : (getMessagesByConversationId uid convId limitQ beforeQ db).1 =
      MsgsResult.ok page)
    (m : Message) (hm : m ∈ page.messages) :
    uid ∉ m.deletedFor ∧
    ∀ t, viewerWatermark uid conversation = some t → t < m.createdAt := by
  unfold getMessagesByConversationId at hrun
  rw [hconv] at hrun
  simp only [MsgsResult.ok.injEq] at hrun
  subst hrun
  simp only [List.mem_reverse] at hm
  have hmem : m ∈ (sortDesc (db.messages.filter
      (messageVisible uid (viewerWatermark uid conversation) beforeQ
        conversation.id))).take (effectiveLimit limitQ + 1) := by
    split at hm
    · exact List.mem_of_mem_take hm
    · exact hm
  have hsorted := mem_sortDesc.1 (List.mem_of_mem_take hmem)
  exact messageVisible_true (List.mem_filter.1 hsorted).2

/-- Store for the C5 witness: viewer 1 carries watermark 10 in conversation
0, which holds one message below the watermark, one message deleted for the
viewer, and one visible message. -/
def c5db : DB :=
  { users := [1, 2]
    convs := [{ id := 0
                participants := [{ userId := 1, hideMessagesBefore := some 10 },
                                 { userId := 2 }]
                createdAt := 0
                updatedAt := 30 }]
    messages := [{ id := 0
                   conversationId := 0
                   senderId := 2
                   text := some "old"
                   createdAt := 5
                   updatedAt := 5 },
                 { id := 1
                   conversationId := 0
                   senderId := 2
                   text := some "gone"
                   deletedFor := [1]
                   createdAt := 20
                   updatedAt := 20 },
                 { id := 2
                   conversationId := 0
                   senderId := 2
                   text := some "new"
                   createdAt := 30
                   updatedAt := 30 }]
    nextConvId := 1
    nextMsgId := 3 }

/-- The conversation document of c5db. -/
def c5conv : Conversation :=
  { id := 0
    participants := [{ userId := 1, hideMessagesBefore := some 10 },
                     { userId := 2 }]
    createdAt := 0
    updatedAt := 30 }

/-- The one message of c5db visible to viewer 1. -/
def c5visible : Message :=
  { id := 2
    conversationId := 0
    senderId := 2
    text := some "new"
    createdAt := 30
    updatedAt := 30 }

/-- The page returned to viewer 1 for conversation 0 of c5db. -/
def c5page : MessagesPage :=
  { conversationId := 0
    conversationType := ConvType.Private
    messages := [c5visible]
    nextCursor := none
    hasMore := false }

/-- C5 witness: on c5db the listing returns exactly the visible message,
and the theorem yields that viewer 1 is not in its deletedFor set and that
its createdAt lies strictly above the watermark 10. -/
theorem getMessages_respects_deletedFor_and_watermark_witness :
    1 ∉ c5visible.deletedFor ∧ 10 < c5visible.createdAt := by
  have h := getMessages_respects_deletedFor_and_watermark 1 0 none none c5db
    c5conv c5page (by decide) (by decide) c5visible (by decide)
  exact ⟨h.1, h.2 10 (by decide)⟩

/-- C8: soft-deleting a conversation mutates only the caller's participant
record.  First conjunct: the REST deleteConversationForUser maps every
other participant record to itself (all fields preserved at its position)
and the caller's record to the same record with only deletedAt and
hideMessagesBefore set to now.  Second conjunct: the softDeleteConversation
handler, on its mutating path, likewise preserves every participant record
whose userId differs from the caller. -/
theorem softDelete_frame_other_participants :
    (∀ (meId convId : ObjectId) (now : Timestamp) (db : DB) (conv : Conversation),
      db.convs.find? (fun c => c.id == convId) = some conv →
      ∀ conv2, (deleteConversationForUser meId convId now db).2.convs.find?
          (fun c => c.id == convId) = some conv2 →
      ∀ (i : Nat) (p : Participant), conv.participants[i]? = some p →
        (p.userId ≠ meId → conv2.participants[i]? = some p) ∧
        (p.userId = meId → conv2.participants[i]? =
          some { p with deletedAt := some now, hideMessagesBefore := some now })) ∧
    (∀ (meId convId : ObjectId) (now : Timestamp) (db : DB)
      (conversation : Conversation) (participant : Participant),
      db.convs.find? (fun c => c.id == convId) = some conversation →
      conversation.participants.find? (fun p => p.userId == meId) = some participant →
      participant.blocked = false →
      (participant.deletedAt.isSome && participant.hideMessagesBefore.isSome
        && participant.deletedAt == participant.hideMessagesBefore) = false →
      ∀ conv2, (softDeleteConversation meId convId now db).2.convs.find?
          (fun c => c.id == convId) = some conv2 →
      ∀ (i : Nat) (p : Participant), conversation.participants[i]? = some p →
        p.userId ≠ meId → conv2.participants[i]? = some p) := by
  constructor
  · intro meId convId now db conv hfind conv2 hfind2 i p hp
    unfold deleteConversationForUser at hfind2
    rw [hfind] at hfind2
    simp only at hfind2
    rw [find?_map_replace
      { conv with participants := conv.participants.map (softDeleteParticipant meId now) }
      hfind rfl] at hfind2
    injection hfind2 with h2
    subst h2
    constructor
    · intro hne
      show (conv.participants.map (softDeleteParticipant meId now))[i]? = some p
      rw [List.getElem?_map, hp, Option.map_some']
      simp [softDeleteParticipant, beq_eq_false_iff_ne.2 hne]
    · intro heq
      show (conv.participants.map (softDeleteParticipant meId now))[i]? = some _
      rw [List.getElem?_map, hp, Option.map_some']
      simp [softDeleteParticipant, heq]
  · intro meId convId now db conversation participant hfind hpart hblocked
      hnotalready conv2 hfind2 i p hp hne
    unfold softDeleteConversation at hfind2
    rw [hfind] at hfind2
    simp only at hfind2
    rw [hpart] at hfind2
    simp only at hfind2
    rw [hblocked, hnotalready] at hfind2
    simp only [Bool.false_eq_true, if_false] at hfind2
    rw [find?_map_replace
      { conversation with
          participants := updateFirstMatching meId
            (fun p => { p with deletedAt := some now, hideMessagesBefore := some now })
            conversation.participants }
      hfind rfl] at hfind2
    injection hfind2 with h2
    subst h2
    exact updateFirstMatching_getElem_ne hp hne

/-- Store for the C8 witness: conversation 0 between user 1 and user 2,
where user 2 carries distinctive archived and muted values that must
survive user 1's soft delete. -/
def c8db : DB :=
  { users := [1, 2]
    convs := [{ id := 0
                participants := [{ userId := 1 },
                                 { userId := 2, archivedAt := some 4, mutedUntil := some 6 }]
                createdAt := 0
                updatedAt := 0 }]
    nextConvId := 1 }

/-- The conversation document of c8db. -/
def c8conv : Conversation :=
  { id := 0
    participants := [{ userId := 1 },
                     { userId := 2, archivedAt := some 4, mutedUntil := some 6 }]
    createdAt := 0
    updatedAt := 0 }

/-- User 2's participant record in c8db. -/
def c8other : Participant := { userId := 2, archivedAt := some 4, mutedUntil := some 6 }

/-- The conversation left behind by either soft-delete path of c8db. -/
def c8mutated : Conversation :=
  { id := 0
    participants := [{ userId := 1, deletedAt := some 50, hideMessagesBefore := some 50 },
                     { userId := 2, archivedAt := some 4, mutedUntil := some 6 }]
    createdAt := 0
    updatedAt := 0 }

/-- C8 witness: user 1 soft-deletes conversation 0 of c8db over each
transport handler; user 2's record, including its archived and muted
values, is unchanged at its position. -/
theorem softDelete_frame_other_participants_witness :
    c8mutated.participants[1]? = some c8other ∧
    (deleteConversationForUser 1 0 50 c8db).2.convs.find?
      (fun c => c.id == 0) = some c8mutated ∧
    (softDeleteConversation 1 0 50 c8db).2.convs.find?
      (fun c => c.id == 0) = some c8mutated := by
  have h := softDelete_frame_other_participants
  refine ⟨?_, by decide, by decide⟩
  exact (h.1 1 0 50 c8db c8conv (by decide) c8mutated (by decide) 1 c8other
    (by decide)).1 (by decide)

/-- C6: when deleteForEveryone is applied by the sender to the message that
is currently the conversation's lastMessage, the operation succeeds,
recomputes lastMessage over the updated message store as the most recent
message of the conversation with isDeletedForEveryone false (none when no
such message remains, each direction stated), and sets the conversation's
updatedAt to now; in particular deleting a conversation's only message
leaves lastMessage null. -/
theorem deleteForEveryone_recomputes_lastMessage
    (meId messageId : ObjectId) (now : Timestamp) (db : DB)
    (msg : Message) (conv : Conversation) (lm : LastMessage)
    (hmsg : db.messages.find? (fun m => m.id == messageId) = some msg)
    (hsender : (msg.senderId == meId) = true)
    (hconv : db.convs.find? (fun c => c.id == msg.conversationId) = some conv)
    (hlast : conv.lastMessage = some lm)
    (hlm : (lm.messageId == messageId) = true) :
    (deleteMessageForEveryone meId messageId now db).1 =
      SimpleResult.ok ("Deleted for everyone") ∧
    ∀ conv2, (deleteMessageForEveryone meId messageId now db).2.convs.find?
        (fun c => c.id == msg.conversationId) = some conv2 →
      conv2.updatedAt = now ∧
      ((∀ m ∈ (deleteMessageForEveryone meId messageId now db).2.messages,
          m.conversationId = msg.conversationId → m.isDeletedForEveryone = true) →
        conv2.lastMessage = none) ∧
      (conv2.lastMessage = none →
        ∀ m ∈ (deleteMessageForEveryone meId messageId now db).2.messages,
          m.conversationId = msg.conversationId → m.isDeletedForEveryone = true) ∧
      ∀ lm2, conv2.lastMessage = some lm2 →
        ∃ mnew, mnew ∈ (deleteMessageForEveryone meId messageId now db).2.messages ∧
          mnew.id = lm2.messageId ∧ mnew.conversationId = msg.conversationId ∧
          mnew.isDeletedForEveryone = false ∧ lm2.sentAt = mnew.createdAt ∧
          ∀ m2 ∈ (deleteMessageForEveryone meId messageId now db).2.messages,
            m2.conversationId = msg.conversationId → m2.isDeletedForEveryone = false →
            m2.createdAt ≤ mnew.createdAt := by
  have hcid : conv.id = msg.conversationId := by simpa using List.find?_some hconv
  have hred : deleteMessageForEveryone meId messageId now db =
      ((SimpleResult.ok ("Deleted for everyone")),
       { db with
           messages := db.messages.map (fun m =>
             if m.id == messageId then { m with isDeletedForEveryone := true } else m)
           convs := db.convs.map (fun c =>
             if c.id == conv.id then
               { conv with
                   lastMessage := ((sortDesc ((db.messages.map (fun m =>
                       if m.id == messageId then { m with isDeletedForEveryone := true }
                       else m)).filter (fun m =>
                       m.conversationId == msg.conversationId &&
                         !m.isDeletedForEveryone))).head?).map (fun l =>
                     { messageId := l.id, text := l.text.getD "", sentAt := l.createdAt })
                   updatedAt := now }
             else c) }) := by
    simp only [deleteMessageForEveryone, hmsg, hsender, Bool.not_true, Bool.false_eq_true,
      if_false, hconv, hlast, hlm, if_true]
  rw [hred]
  simp only
  refine ⟨trivial, ?_⟩
  intro conv2 hfind2
  have hconv' : db.convs.find? (fun c => c.id == conv.id) = some conv := by
    rw [hcid]; exact hconv
  rw [← hcid] at hfind2
  rw [find?_map_replace
    { conv with
        lastMessage := ((sortDesc ((db.messages.map (fun m =>
            if m.id == messageId then { m with isDeletedForEveryone := true }
            else m)).filter (fun m =>
            m.conversationId == conv.id && !m.isDeletedForEveryone))).head?).map (fun l =>
          { messageId := l.id, text := l.text.getD "", sentAt := l.createdAt })
        updatedAt := now }
    hconv' rfl] at hfind2
  injection hfind2 with h2
  subst h2
  refine ⟨rfl, ?_, ?_, ?_⟩
  · intro hall
    have hFnil : (db.messages.map (fun m =>
        if m.id == messageId then { m with isDeletedForEveryone := true }
        else m)).filter (fun m =>
        m.conversationId == conv.id && !m.isDeletedForEveryone) = [] := by
      apply List.filter_eq_nil_iff.2
      intro a ha
      simp only [Bool.and_eq_true, beq_iff_eq, Bool.not_eq_true', not_and]
      intro hac
      have hx := hall a ha (hac.trans hcid)
      simp [hx]
    rw [hFnil]
    simp [sortDesc]
  · intro hnone m hm hmc
    simp only at hnone
    have hh := Option.map_eq_none'.1 hnone
    have hFnil := sortDesc_eq_nil_iff.1 (List.head?_eq_none_iff.1 hh)
    have hnot := List.filter_eq_nil_iff.1 hFnil m hm
    by_contra hdel
    apply hnot
    have hdel' : m.isDeletedForEveryone = false := by
      cases hb : m.isDeletedForEveryone
      · rfl
      · exact absurd hb hdel
    simp [hmc, ← hcid, hdel']
  · intro lm2 hsome
    simp only at hsome
    cases hhead : sortDesc ((db.messages.map (fun m =>
        if m.id == messageId then { m with isDeletedForEveryone := true }
        else m)).filter (fun m =>
        m.conversationId == conv.id && !m.isDeletedForEveryone)) with
    | nil =>
      rw [hhead] at hsome
      simp at hsome
    | cons a t =>
      rw [hhead] at hsome
      simp only [List.head?_cons, Option.map_some', Option.some.injEq] at hsome
      subst hsome
      obtain ⟨hmem, hmax⟩ := sortDesc_head_max hhead
      obtain ⟨hamem, hapred⟩ := List.mem_filter.1 hmem
      simp only [Bool.and_eq_true, beq_iff_eq, Bool.not_eq_true'] at hapred
      obtain ⟨hac, had⟩ := hapred
      refine ⟨a, hamem, rfl, hac.trans hcid, had, rfl, ?_⟩
      intro m2 hm2 hc2 hd2
      apply hmax
      apply List.mem_filter.2
      refine ⟨hm2, ?_⟩
      simp [hc2, ← hcid, hd2]

/-- The only message of the C6 witness store. -/
def c6msg : Message :=
  { id := 0
    conversationId := 0
    senderId := 1
    text := some "hi"
    createdAt := 5
    updatedAt := 5 }

/-- The lastMessage projection of the C6 witness store. -/
def c6lm : LastMessage := { messageId := 0, text := "hi", sentAt := 5 }

/-- The conversation of the C6 witness store. -/
def c6conv : Conversation :=
  { id := 0
    participants := [{ userId := 1 }, { userId := 2 }]
    lastMessage := some c6lm
    createdAt := 0
    updatedAt := 5 }

/-- C6 witness store: a conversation whose only message is its lastMessage. -/
def c6db : DB :=
  { users := [1, 2]
    convs := [c6conv]
    messages := [c6msg]
    nextConvId := 1
    nextMsgId := 1 }

/-- The conversation left after the C6 witness delete. -/
def c6convAfter : Conversation :=
  { id := 0
    participants := [{ userId := 1 }, { userId := 2 }]
    lastMessage := none
    createdAt := 0
    updatedAt := 99 }

/-- C6 witness: sender 1 deletes the conversation's only message, which was
lastMessage, for everyone at time 99; the operation succeeds and the
conversation ends with lastMessage null and updatedAt bumped to 99. -/
theorem deleteForEveryone_recomputes_lastMessage_witness :
    (deleteMessageForEveryone 1 0 99 c6db).1 =
      SimpleResult.ok ("Deleted for everyone") ∧
    c6convAfter.updatedAt = 99 ∧ c6convAfter.lastMessage = none := by
  have h := deleteForEveryone_recomputes_lastMessage 1 0 99 c6db c6msg c6conv c6lm
    (by decide) (by decide) (by decide) (by decide) (by decide)
  have h2 := h.2 c6convAfter (by decide)
  exact ⟨h.1, h2.1, h2.2.1 (by decide)⟩

/-- C4: when a private conversation already exists for the pair (and the
request passes the input guards), the create-or-restore handler fails with
the blocked error if either participant has blocked set, fails with the
forbidden (hidden) error if the other side's deletedAt is set, and
otherwise responds restored, leaving the requester's own participant record
with deletedAt and hideMessagesBefore cleared while every other participant
record, every other conversation, the message store and the user store are
unchanged; in both failure cases the store is returned untouched.  The
hypothesis hlock is the store invariant, maintained by every writer, that a
record with deletedAt null also has a null watermark. -/
theorem handlePrivate_restore_guards
    (meId targetId : ObjectId) (initialMessage : String) (now dbNow : Timestamp)
    (db : DB) (existing : Conversation) (authParticipant targetParticipant : Participant)
    (hmsg : ((strTrim initialMessage).length == 0) = false)
    (hself : (targetId == meId) = false)
    (huser : db.users.contains targetId = true)
    (hfind : findPairConv meId targetId db.convs = some existing)
    (hlen : (existing.participants.length == 2) = true)
    (hauth : existing.participants.find? (fun p => p.userId == meId) = some authParticipant)
    (htarget : existing.participants.find? (fun p => p.userId == targetId) =
      some targetParticipant)
    (hlock : authParticipant.deletedAt = none → authParticipant.hideMessagesBefore = none) :
    ((authParticipant.blocked || targetParticipant.blocked) = true →
      handlePrivateConversation meId targetId initialMessage now dbNow db =
        ((.error 403 ("One of the participants has blocked this conversation.")), db)) ∧
    (authParticipant.blocked = false → targetParticipant.blocked = false →
      targetParticipant.deletedAt ≠ none →
      handlePrivateConversation meId targetId initialMessage now dbNow db =
        ((.error 403
          ("The other participant has hidden this chat. They must restore it first.")), db)) ∧
    (authParticipant.blocked = false → targetParticipant.blocked = false →
      targetParticipant.deletedAt = none →
      (handlePrivateConversation meId targetId initialMessage now dbNow db).1.isRestored =
        true ∧
      ∀ existing2 db2,
        handlePrivateConversation meId targetId initialMessage now dbNow db =
          ((.restored existing2), db2) →
        existing2.participants.find? (fun p => p.userId == meId) =
          some { authParticipant with deletedAt := none, hideMessagesBefore := none } ∧
        (∀ (i : Nat) (p : Participant), existing.participants[i]? = some p →
          p.userId ≠ meId → existing2.participants[i]? = some p) ∧
        db2.messages = db.messages ∧
        db2.users = db.users ∧
        db2.convs.length = db.convs.length ∧
        (∀ (i : Nat) (c : Conversation), db.convs[i]? = some c → c.id ≠ existing.id →
          db2.convs[i]? = some c)) := by
  refine ⟨?_, ?_, ?_⟩
  · intro hblocked
    simp only [handlePrivateConversation, hmsg, hself, huser, Bool.not_true,
      Bool.false_eq_true, if_false, hfind, hlen, hauth, htarget, hblocked, if_true]
  · intro hab htb htd
    have htd' : (targetParticipant.deletedAt == none) = false := beq_eq_false_iff_ne.2 htd
    simp only [handlePrivateConversation, hmsg, hself, huser, Bool.not_true,
      Bool.false_eq_true, if_false, hfind, hlen, hauth, htarget, hab, htb, Bool.or_false,
      htd', Bool.not_false, if_true]
  · intro hab htb htd
    have htd' : (targetParticipant.deletedAt == none) = true := by simp [htd]
    constructor
    · simp only [handlePrivateConversation, hmsg, hself, huser, Bool.not_true,
        Bool.false_eq_true, if_false, hfind, hlen, hauth, htarget, hab, htb, Bool.or_false,
        htd']
      rfl
    · intro existing2 db2 heq
      simp only [handlePrivateConversation, hmsg, hself, huser, Bool.not_true,
        Bool.false_eq_true, if_false, hfind, hlen, hauth, htarget, hab, htb, Bool.or_false,
        htd'] at heq
      rw [Prod.mk.injEq, PrivResult.restored.injEq] at heq
      obtain ⟨hE, hDB⟩ := heq
      subst hE
      subst hDB
      by_cases had : authParticipant.deletedAt = none
      · have hcond : (!(authParticipant.deletedAt == none)) = false := by simp [had]
        have hrec :
            ({ authParticipant with
                deletedAt := none
                hideMessagesBefore := none } : Participant) = authParticipant := by
          have hl := hlock had
          cases authParticipant
          simp only at had hl
          rw [had, hl]
        simp only [hcond, Bool.false_eq_true, if_false]
        refine ⟨?_, ?_, trivial, trivial, by simp, ?_⟩
        · rw [hrec]
          exact hauth
        · intro i p hp hne
          exact hp
        · intro i c hc hne
          rw [List.getElem?_map, hc, Option.map_some']
          simp [beq_eq_false_iff_ne.2 hne]
      · have hcond : (!(authParticipant.deletedAt == none)) = true := by
          simp [beq_eq_false_iff_ne.2 had]
        simp only [hcond, if_true]
        refine ⟨?_, ?_, trivial, trivial, by simp, ?_⟩
        · exact updateFirstMatching_find?
            (fun p => { p with deletedAt := none, hideMessagesBefore := none })
            (fun q => rfl) hauth
        · intro i p hp hne
          exact updateFirstMatching_getElem_ne hp hne
        · intro i c hc hne
          rw [List.getElem?_map, hc, Option.map_some']
          simp [beq_eq_false_iff_ne.2 hne]

/-- Store for the C4 witness: an existing private conversation between
users 1 and 2 in which user 1 has blocked the conversation. -/
def c4db : DB :=
  { users := [1, 2]
    convs := [{ id := 0
                participants := [{ userId := 1, blocked := true }, { userId := 2 }]
                createdAt := 0
                updatedAt := 0 }]
    nextConvId := 1 }

/-- The existing conversation of c4db. -/
def c4conv : Conversation :=
  { id := 0
    participants := [{ userId := 1, blocked := true }, { userId := 2 }]
    createdAt := 0
    updatedAt := 0 }

/-- C4 witness: with user 1's record blocked, the create-or-restore request
from user 1 to user 2 is rejected with the blocked error and the store is
returned untouched. -/
theorem handlePrivate_restore_guards_witness :
    handlePrivateConversation 1 2 ("hi") 7 8 c4db =
      ((.error 403 ("One of the participants has blocked this conversation.")), c4db) := by
  exact (handlePrivate_restore_guards 1 2 ("hi") 7 8 c4db c4conv
    { userId := 1, blocked := true } { userId := 2 }
    (by decide) (by decide) (by decide) (by decide) (by decide) (by decide) (by decide)
    (by decide)).1 (by decide)

theorem blockedPairConv_imp {meId participantId : ObjectId} {c : Conversation}
    (h : blockedPairConv meId participantId c = true) :
    isPrivatePairConv meId participantId c = true := by
  unfold blockedPairConv at h
  rw [Bool.and_eq_true] at h
  exact h.1

theorem activePairConv_imp {meId participantId : ObjectId} {c : Conversation}
    (h : activePairConv meId participantId c = true) :
    isPrivatePairConv meId participantId c = true := by
  unfold activePairConv at h
  unfold isPrivatePairConv
  simp only [Bool.and_eq_true] at h ⊢
  obtain ⟨⟨ht, hme⟩, hpid⟩ := h
  refine ⟨⟨ht, ?_⟩, ?_⟩
  · rw [List.any_eq_true] at hme ⊢
    obtain ⟨p, hp, hpp⟩ := hme
    rw [Bool.and_eq_true] at hpp
    exact ⟨p, hp, hpp.1⟩
  · rw [List.any_eq_true] at hpid ⊢
    obtain ⟨p, hp, hpp⟩ := hpid
    rw [Bool.and_eq_true] at hpp
    exact ⟨p, hp, hpp.1⟩

/-- C1 (amended): for a pair with no existing private conversation in the
store and neither side blocked, the create/get operation called twice
yields exactly one persisted conversation: the first call creates it and
the second call returns that same conversation without touching the store,
which then contains exactly one private conversation for the pair. -/
theorem getOrCreate_once_then_return_existing
    (meId participantId : ObjectId) (t1 t2 : Timestamp) (db : DB)
    (c : Conversation) (db1 : DB)
    (hno : ∀ x ∈ db.convs, isPrivatePairConv meId participantId x = false)
    (h1 : getOrCreatePrivateConversation meId participantId t1 db =
      (GetOrCreateResult.created c, db1)) :
    getOrCreatePrivateConversation meId participantId t2 db1 =
      (GetOrCreateResult.okExisting c, db1) ∧
    db1.convs.countP (fun x => isPrivatePairConv meId participantId x) = 1 := by
  have hblocked : db.convs.find? (blockedPairConv meId participantId) = none := by
    apply List.find?_eq_none.2
    intro x hx hbx
    have hpx := blockedPairConv_imp hbx
    rw [hno x hx] at hpx
    simp at hpx
  have hactive : db.convs.find? (activePairConv meId participantId) = none := by
    apply List.find?_eq_none.2
    intro x hx hax
    have hpx := activePairConv_imp hax
    rw [hno x hx] at hpx
    simp at hpx
  unfold getOrCreatePrivateConversation at h1
  rw [hblocked] at h1
  simp only at h1
  rw [hactive] at h1
  simp only at h1
  rw [Prod.mk.injEq, GetOrCreateResult.created.injEq] at h1
  obtain ⟨hc, hdb⟩ := h1
  subst hc
  subst hdb
  constructor
  · unfold getOrCreatePrivateConversation
    have hb2 : (db.convs ++
        [({ id := db.nextConvId
            participants := [{ userId := meId }, { userId := participantId }]
            createdAt := t1
            updatedAt := t1 } : Conversation)]).find?
          (blockedPairConv meId participantId) = none := by
      rw [find?_append_of_none hblocked]
      simp [List.find?, blockedPairConv, isPrivatePairConv]
    have ha2 : (db.convs ++
        [({ id := db.nextConvId
            participants := [{ userId := meId }, { userId := participantId }]
            createdAt := t1
            updatedAt := t1 } : Conversation)]).find?
          (activePairConv meId participantId) = some
            { id := db.nextConvId
              participants := [{ userId := meId }, { userId := participantId }]
              createdAt := t1
              updatedAt := t1 } := by
      rw [find?_append_of_none hactive]
      simp [List.find?, activePairConv]
    simp only [hb2, ha2]
  · rw [List.countP_append]
    have h0 : db.convs.countP (fun x => isPrivatePairConv meId participantId x) = 0 :=
      List.countP_eq_zero.2 (fun x hx => by simp [hno x hx])
    have hone : ([({ id := db.nextConvId
                     participants := [{ userId := meId }, { userId := participantId }]
                     createdAt := t1
                     updatedAt := t1 } : Conversation)] : List Conversation).countP
          (fun x => isPrivatePairConv meId participantId x) = 1 := by
      simp [List.countP, List.countP.go, isPrivatePairConv]
    rw [h0, hone]

/-- Starting store for the C1 amended-claim witness. -/
def c1wdb : DB := { users := [1, 2] }

/-- The conversation the first create/get call of the witness creates. -/
def c1wConv : Conversation :=
  { id := 0
    participants := [{ userId := 1 }, { userId := 2 }]
    createdAt := 10
    updatedAt := 10 }

/-- The store after the first create/get call of the witness. -/
def c1wdb1 : DB := { users := [1, 2], convs := [c1wConv], nextConvId := 1 }

/-- C1 witness: with no prior conversation between users 1 and 2, the first
call creates conversation 0 and the second call returns it unchanged, the
store holding exactly one private conversation for the pair. -/
theorem getOrCreate_once_then_return_existing_witness :
    getOrCreatePrivateConversation 1 2 20 c1wdb1 =
      (GetOrCreateResult.okExisting c1wConv, c1wdb1) ∧
    c1wdb1.convs.countP (fun x => isPrivatePairConv 1 2 x) = 1 := by
  exact getOrCreate_once_then_return_existing 1 2 10 20 c1wdb c1wConv c1wdb1
    (by decide) (by decide)
